import Mathlib

/-
Verification development for the session core of the ssh repository
(src/session.c).  The C code is an R binding over libssh; we give a shallow
embedding: each C function that the claims mention becomes a Lean function
over an explicit oracle ("World") that records what every libssh primitive
would return.  R control flow (Rf_error performs a non-local exit) is
modelled with an explicit result type RRes; observable effects (libssh
calls, credential resolution, teardown) are recorded in an event trace.
Informational printing (Rprintf of names, instructions, fingerprints and
banners) has no influence on control flow and is not modelled.
-/

namespace SshSession

/-- Result of an R-level computation: either a value or a raised R error
carrying its message (Rf_error / Rf_errorcall perform a non-local exit). -/
inductive RRes (α : Type) where
  | ok (val : α)
  | err (msg : String)
deriving DecidableEq, Repr

/-- Observable events of a run: libssh primitive calls and credential
resolutions, in the order the C code performs them. -/
inductive Ev where
  | ev_new
  | ev_connect
  | ev_get_publickey
  | ev_get_hash
  | ev_none
  | ev_list
  | ev_pubkey
  | ev_pubkey_auto
  | ev_kbd_challenge
  | ev_resolve (prompt : String)
  | ev_setanswer (slot : Nat) (answer : String)
  | ev_password (pw : String)
  | ev_disconnect
  | ev_free
deriving DecidableEq, Repr

/-- libssh status codes used by session.c (from the external library
headers; the code compares against these constants). -/
def SSH_OK : Int := 0

def SSH_AUTH_SUCCESS : Int := 0

def SSH_AUTH_DENIED : Int := 1

def SSH_AUTH_INFO : Int := 3

def SSH_AUTH_ERROR : Int := -1

/-- libssh advertised-method bits (external library headers). -/
def SSH_AUTH_METHOD_PASSWORD : Nat := 2

def SSH_AUTH_METHOD_PUBLICKEY : Nat := 4

def SSH_AUTH_METHOD_INTERACTIVE : Nat := 16

/-- Result of invoking an R credential callback: it may return a string,
return a non-string value, or raise (R_tryEval reporting an error). -/
inductive CbResult where
  | ok (s : String)
  | nonString
  | raised

/-- The rpass SEXP of session.c: a character vector (list of strings, as
Rf_isString and Rf_length see it), a function, or any other R value. -/
inductive Cred where
  | str (vals : List String)
  | fn (f : String → CbResult)
  | other

/-- strncpy(buf, src, 1024): the 1024-byte stack buffer of session.c keeps
only the first 1024 bytes of the source string.  Bytes are modelled as the
characters of the string. -/
def strncpy1024 (s : String) : String :=
  String.mk (s.data.take 1024)

/-- password_cb, session.c lines 37-54: a literal character vector of
nonzero length yields its first element copied into the 1024-byte buffer;
a function is invoked with the prompt and must return a string, which is
copied into the buffer; anything else raises.  The C return value (a
length) is unused by every caller and is not modelled; the value carried
by RRes.ok is the buffer content. -/
def password_cb (rpass : Cred) (prompt : String) : RRes String :=
  match rpass with
  | Cred.str [] => RRes.err "unsupported password type"
  | Cred.str (s :: _) => RRes.ok (strncpy1024 s)
  | Cred.fn f =>
    match f prompt with
    | CbResult.ok s => RRes.ok (strncpy1024 s)
    | CbResult.nonString => RRes.err "Password callback did not return a string value"
    | CbResult.raised => RRes.err "Password callback did not return a string value"
  | Cred.other => RRes.err "unsupported password type"

/-- One keyboard-interactive round that the server answers with
SSH_AUTH_INFO: its name and instruction strings and, for each prompt slot
in index order, the prompt text together with whether
ssh_userauth_kbdint_setanswer accepts the answer for that slot. -/
structure KbdRound where
  name : String
  instruction : String
  prompts : List (String × Bool)

/-- Everything the remote server decides during one authentication
negotiation: the outcome of each libssh authentication primitive. -/
structure Server where
  none_rc : Int
  methods : Nat
  pubkey_rc : Int
  pubkey_auto_rc : Int
  kbd_rounds : List KbdRound
  kbd_final : Int
  password_rc : Int

/-- Oracle for one C_start_session run: results of key-file import, the
option setters, connect, host-key retrieval (whose results session.c
discards), the last libssh error text, the server behaviour and the
optional banner. -/
structure World where
  keyfile : Bool
  key_import_ok : Bool
  opt_host_rc : Int
  opt_user_rc : Int
  opt_port_rc : Int
  connect_rc : Int
  publickey_rc : Int
  publickey_hash_rc : Int
  server_known : Bool
  errmsg : String
  server : Server
  banner : Option String

/-- bail_if, session.c lines 27-35: on a nonzero status it copies the
libssh error text into a 1024-byte buffer, disconnects, frees, and raises;
otherwise it does nothing. -/
def bail_if (w : World) (rc : Int) (what : String) : List Ev × RRes Unit :=
  if rc ≠ SSH_OK then
    ([Ev.ev_disconnect, Ev.ev_free],
     RRes.err ("libssh failure at " ++ what ++ ": " ++ strncpy1024 w.errmsg))
  else ([], RRes.ok ())

/-- Outcome of the prompt loop of one keyboard-interactive round. -/
inductive RoundOut where
  | done
  | rejected
  | rerr (msg : String)
deriving DecidableEq, Repr

/-- The for-loop of auth_interactive, session.c lines 81-87: for each
prompt slot in index order, resolve an answer through password_cb and
submit it with ssh_userauth_kbdint_setanswer; a raising resolution
propagates the R error, a rejected submission returns SSH_AUTH_ERROR at
once. -/
def do_prompts (rpass : Cred) : List (String × Bool) → Nat → List Ev × RoundOut
  | [], _ => ([], RoundOut.done)
  | (p, acc) :: rest, i =>
    match password_cb rpass p with
    | RRes.err e => ([Ev.ev_resolve p], RoundOut.rerr e)
    | RRes.ok buf =>
      if acc then
        let t := do_prompts rpass rest (i + 1)
        (Ev.ev_resolve p :: Ev.ev_setanswer i buf :: t.1, t.2)
      else
        ([Ev.ev_resolve p, Ev.ev_setanswer i buf], RoundOut.rejected)

/-- auth_interactive, session.c lines 71-91: ssh_userauth_kbdint is called
first; while it reports SSH_AUTH_INFO the pending round is processed and
the challenge is issued again; the first status other than SSH_AUTH_INFO
is returned.  kbd_rounds lists the successive SSH_AUTH_INFO rounds and
kbd_final is that first other status. -/
def auth_interactive (rpass : Cred) : List KbdRound → Int → List Ev × RRes Int
  | [], final => ([Ev.ev_kbd_challenge], RRes.ok final)
  | r :: rest, final =>
    let t := do_prompts rpass r.prompts 0
    match t.2 with
    | RoundOut.rerr e => (Ev.ev_kbd_challenge :: t.1, RRes.err e)
    | RoundOut.rejected => (Ev.ev_kbd_challenge :: t.1, RRes.ok SSH_AUTH_ERROR)
    | RoundOut.done =>
      let t2 := auth_interactive rpass rest final
      (Ev.ev_kbd_challenge :: (t.1 ++ t2.1), t2.2)

/-- auth_password, session.c lines 63-69: resolve the secret with the
fixed prompt, submit it with ssh_userauth_password, and bail out (with
teardown) exactly when the returned status is SSH_AUTH_ERROR; any other
status is returned to the caller. -/
def auth_password (w : World) (rpass : Cred) : List Ev × RRes Int :=
  match password_cb rpass "Please enter your password" with
  | RRes.err e => ([Ev.ev_resolve "Please enter your password"], RRes.err e)
  | RRes.ok buf =>
    let rc := w.server.password_rc
    let b := bail_if w (if rc = SSH_AUTH_ERROR then 1 else 0) "password auth"
    match b.2 with
    | RRes.err e =>
      ([Ev.ev_resolve "Please enter your password", Ev.ev_password buf] ++ b.1, RRes.err e)
    | RRes.ok _ =>
      ([Ev.ev_resolve "Please enter your password", Ev.ev_password buf], RRes.ok rc)

/-- The public-key step of auth_any, session.c lines 98-103: attempted
only when the server advertises the public-key method; with an explicit
private key exactly one ssh_userauth_publickey attempt is made, without
one exactly one ssh_userauth_publickey_auto attempt; the Bool tells
whether the attempt returned SSH_AUTH_SUCCESS. -/
def try_pubkey (srv : Server) (pk : Bool) : List Ev × Bool :=
  if srv.methods &&& SSH_AUTH_METHOD_PUBLICKEY = 0 then ([], false)
  else if pk then ([Ev.ev_pubkey], srv.pubkey_rc == SSH_AUTH_SUCCESS)
  else ([Ev.ev_pubkey_auto], srv.pubkey_auto_rc == SSH_AUTH_SUCCESS)

/-- The keyboard-interactive step of auth_any, session.c line 104: the
short-circuiting conjunction calls auth_interactive only when the
interactive bit is set; the Bool of RRes.ok tells whether it returned
SSH_AUTH_SUCCESS. -/
def try_inter (srv : Server) (rpass : Cred) : List Ev × RRes Bool :=
  if srv.methods &&& SSH_AUTH_METHOD_INTERACTIVE = 0 then ([], RRes.ok false)
  else
    let t := auth_interactive rpass srv.kbd_rounds srv.kbd_final
    match t.2 with
    | RRes.err e => (t.1, RRes.err e)
    | RRes.ok rc => (t.1, RRes.ok (rc == SSH_AUTH_SUCCESS))

/-- The password step of auth_any, session.c line 106: the short-circuiting
conjunction calls auth_password only when the password bit is set. -/
def try_pass (w : World) (rpass : Cred) : List Ev × RRes Bool :=
  if w.server.methods &&& SSH_AUTH_METHOD_PASSWORD = 0 then ([], RRes.ok false)
  else
    let t := auth_password w rpass
    match t.2 with
    | RRes.err e => (t.1, RRes.err e)
    | RRes.ok rc => (t.1, RRes.ok (rc == SSH_AUTH_SUCCESS))

/-- auth_any, session.c lines 94-109: try none; on anything but success
query ssh_userauth_list once, then try public key, keyboard-interactive
and password in that order, each gated on its advertised bit, returning on
the first success; if nothing succeeded raise the permission-denied error
with Rf_error.  Note that this final Rf_error performs no teardown: it
raises with the session still allocated. -/
def auth_any (w : World) (pk : Bool) (rpass : Cred) : List Ev × RRes Unit :=
  if w.server.none_rc = SSH_AUTH_SUCCESS then ([Ev.ev_none], RRes.ok ())
  else
    let tp := (try_pubkey w.server pk).1
    if (try_pubkey w.server pk).2 then ([Ev.ev_none, Ev.ev_list] ++ tp, RRes.ok ())
    else
      let ti := (try_inter w.server rpass).1
      match (try_inter w.server rpass).2 with
      | RRes.err e => ([Ev.ev_none, Ev.ev_list] ++ tp ++ ti, RRes.err e)
      | RRes.ok true => ([Ev.ev_none, Ev.ev_list] ++ tp ++ ti, RRes.ok ())
      | RRes.ok false =>
        let tw := (try_pass w rpass).1
        match (try_pass w rpass).2 with
        | RRes.err e => ([Ev.ev_none, Ev.ev_list] ++ tp ++ ti ++ tw, RRes.err e)
        | RRes.ok true => ([Ev.ev_none, Ev.ev_list] ++ tp ++ ti ++ tw, RRes.ok ())
        | RRes.ok false =>
          ([Ev.ev_none, Ev.ev_list] ++ tp ++ ti ++ tw,
           RRes.err "Authentication failed, permission denied")

/-- C_start_session, session.c lines 111-159: read the private key when a
key file is given (failure raises before any session exists), create the
session, set the host, user and port options through bail_if, connect
through bail_if, retrieve the server public key and its SHA-1 hash while
DISCARDING both status codes (lines 143-144 ignore the return values, so
a failed retrieval is never noticed), then authenticate with auth_any and
on success return the owning handle.  The banner printing of lines 152-156
has no observable effect beyond output and is not modelled. -/
def C_start_session (w : World) (rpass : Cred) : List Ev × RRes Unit :=
  if w.keyfile && !w.key_import_ok then
    ([], RRes.err "Failed to read private key")
  else
    let pk := w.keyfile
    let s1 := bail_if w w.opt_host_rc "set host"
    match s1.2 with
    | RRes.err e => (Ev.ev_new :: s1.1, RRes.err e)
    | RRes.ok _ =>
      let s2 := bail_if w w.opt_user_rc "set user"
      match s2.2 with
      | RRes.err e => (Ev.ev_new :: s2.1, RRes.err e)
      | RRes.ok _ =>
        let s3 := bail_if w w.opt_port_rc "set port"
        match s3.2 with
        | RRes.err e => (Ev.ev_new :: s3.1, RRes.err e)
        | RRes.ok _ =>
          let s4 := bail_if w w.connect_rc "connect"
          match s4.2 with
          | RRes.err e => (Ev.ev_new :: Ev.ev_connect :: s4.1, RRes.err e)
          | RRes.ok _ =>
            let a := auth_any w pk rpass
            match a.2 with
            | RRes.err e =>
              ([Ev.ev_new, Ev.ev_connect, Ev.ev_get_publickey, Ev.ev_get_hash] ++ a.1,
               RRes.err e)
            | RRes.ok _ =>
              ([Ev.ev_new, Ev.ev_connect, Ev.ev_get_publickey, Ev.ev_get_hash] ++ a.1,
               RRes.ok ())

/-- The external-pointer state of a session handle: some s when
R_ExternalPtrAddr is a live session, none once the pointer was cleared. -/
abbrev SessPtr := Option Nat

/-- ssh_ptr_get, session.c lines 3-8: the sole accessor of the raw
resource; on a cleared pointer it raises instead of returning a session. -/
def ssh_ptr_get : SessPtr → RRes Nat
  | none => RRes.err "SSH session pointer is dead"
  | some s => RRes.ok s

/-- ssh_ptr_fin, session.c lines 10-17: the single designated destructor.
On a cleared pointer it returns at once touching nothing; otherwise it
disconnects, frees, and clears the pointer. -/
def ssh_ptr_fin : SessPtr → SessPtr × List Ev
  | none => (none, [])
  | some _ => (none, [Ev.ev_disconnect, Ev.ev_free])

/-- C_disconnect_session, session.c lines 161-164: explicit release simply
runs the finalizer (and returns R_NilValue; it can never raise). -/
def C_disconnect_session (p : SessPtr) : SessPtr × List Ev :=
  ssh_ptr_fin p

/-- Value of a successful credential resolution (used to state traces). -/
def cb_val (rpass : Cred) (p : String) : String :=
  match password_cb rpass p with
  | RRes.ok s => s
  | RRes.err _ => ""

/-- The events the prompt loop emits for a list of prompts it walks
through completely, starting at slot i. -/
def prompts_trace (rpass : Cred) : List (String × Bool) → Nat → List Ev
  | [], _ => []
  | (p, _) :: rest, i =>
    Ev.ev_resolve p :: Ev.ev_setanswer i (cb_val rpass p) :: prompts_trace rpass rest (i + 1)

/-- A secret of 1025 bytes, exceeding the 1024-byte buffer. -/
def bigSecret : String := String.mk (List.replicate 1025 'a')

/-- A server accepting the none method outright. -/
def srvNoneOk : Server :=
  { none_rc := 0, methods := 22, pubkey_rc := 1, pubkey_auto_rc := 1,
    kbd_rounds := [], kbd_final := 1, password_rc := 1 }

/-- A server that denies the none method and advertises no method the
negotiator supports. -/
def srvNothing : Server :=
  { none_rc := 1, methods := 0, pubkey_rc := 1, pubkey_auto_rc := 1,
    kbd_rounds := [], kbd_final := 1, password_rc := 1 }

/-- A world where transport connect succeeds and the server denies every
authentication method: the run reaches the final Rf_error of auth_any. -/
def wAuthFail : World :=
  { keyfile := false, key_import_ok := true, opt_host_rc := 0, opt_user_rc := 0,
    opt_port_rc := 0, connect_rc := 0, publickey_rc := 0, publickey_hash_rc := 0,
    server_known := true, errmsg := "", server := srvNothing, banner := none }

/-- A world where transport connect succeeds, ssh_get_publickey fails
(returns SSH_ERROR = -1), and the server then accepts the none method. -/
def wHostKeyFail : World :=
  { keyfile := false, key_import_ok := true, opt_host_rc := 0, opt_user_rc := 0,
    opt_port_rc := 0, connect_rc := 0, publickey_rc := -1, publickey_hash_rc := -1,
    server_known := true, errmsg := "", server := srvNoneOk, banner := none }

/-- A world where the none attempt itself succeeds. -/
def wNoneOk : World :=
  { keyfile := false, key_import_ok := true, opt_host_rc := 0, opt_user_rc := 0,
    opt_port_rc := 0, connect_rc := 0, publickey_rc := 0, publickey_hash_rc := 0,
    server_known := true, errmsg := "", server := srvNoneOk, banner := none }

/-! Helper lemmas: which events each step can emit. -/

theorem mem_do_prompts {rpass : Cred} {e : Ev} {ps : List (String × Bool)} {i : Nat}
    (h : e ∈ (do_prompts rpass ps i).1) :
    (∃ q, e = Ev.ev_resolve q) ∨ (∃ j a, e = Ev.ev_setanswer j a) := by
  induction ps generalizing i with
  | nil => simp [do_prompts] at h
  | cons hd rest ih =>
    obtain ⟨p, acc⟩ := hd
    rw [do_prompts] at h
    cases hcb : password_cb rpass p with
    | err m =>
      rw [hcb] at h
      simp at h
      exact Or.inl ⟨p, h⟩
    | ok buf =>
      rw [hcb] at h
      by_cases hacc : acc = true
      · simp [hacc] at h
        rcases h with h | h | h
        · exact Or.inl ⟨p, h⟩
        · exact Or.inr ⟨i, buf, h⟩
        · exact ih h
      · simp [hacc] at h
        rcases h with h | h
        · exact Or.inl ⟨p, h⟩
        · exact Or.inr ⟨i, buf, h⟩

theorem mem_auth_interactive {rpass : Cred} {e : Ev} {rounds : List KbdRound} {final : Int}
    (h : e ∈ (auth_interactive rpass rounds final).1) :
    e = Ev.ev_kbd_challenge ∨ (∃ q, e = Ev.ev_resolve q) ∨ (∃ j a, e = Ev.ev_setanswer j a) := by
  induction rounds with
  | nil =>
    simp [auth_interactive] at h
    exact Or.inl h
  | cons r rest ih =>
    rw [auth_interactive] at h
    cases hdp : (do_prompts rpass r.prompts 0).2 with
    | rerr m =>
      rw [hdp] at h
      simp at h
      rcases h with h | h
      · exact Or.inl h
      · exact (mem_do_prompts h).elim (fun x => Or.inr (Or.inl x)) (fun x => Or.inr (Or.inr x))
    | rejected =>
      rw [hdp] at h
      simp at h
      rcases h with h | h
      · exact Or.inl h
      · exact (mem_do_prompts h).elim (fun x => Or.inr (Or.inl x)) (fun x => Or.inr (Or.inr x))
    | done =>
      rw [hdp] at h
      simp at h
      rcases h with h | h | h
      · exact Or.inl h
      · exact (mem_do_prompts h).elim (fun x => Or.inr (Or.inl x)) (fun x => Or.inr (Or.inr x))
      · exact ih h

theorem mem_auth_password {w : World} {rpass : Cred} {e : Ev}
    (h : e ∈ (auth_password w rpass).1) :
    (∃ q, e = Ev.ev_resolve q) ∨ (∃ a, e = Ev.ev_password a)
      ∨ e = Ev.ev_disconnect ∨ e = Ev.ev_free := by
  rw [auth_password] at h
  cases hcb : password_cb rpass "Please enter your password" with
  | err m =>
    rw [hcb] at h
    simp at h
    exact Or.inl ⟨_, h⟩
  | ok buf =>
    rw [hcb] at h
    by_cases hrc : w.server.password_rc = SSH_AUTH_ERROR
    · simp [bail_if, hrc, SSH_OK] at h
      rcases h with h | h | h | h
      · exact Or.inl ⟨_, h⟩
      · exact Or.inr (Or.inl ⟨_, h⟩)
      · exact Or.inr (Or.inr (Or.inl h))
      · exact Or.inr (Or.inr (Or.inr h))
    · simp [bail_if, hrc, SSH_OK] at h
      rcases h with h | h
      · exact Or.inl ⟨_, h⟩
      · exact Or.inr (Or.inl ⟨_, h⟩)

theorem mem_try_pubkey {srv : Server} {pk : Bool} {e : Ev}
    (h : e ∈ (try_pubkey srv pk).1) :
    srv.methods &&& SSH_AUTH_METHOD_PUBLICKEY ≠ 0
      ∧ ((e = Ev.ev_pubkey ∧ pk = true) ∨ (e = Ev.ev_pubkey_auto ∧ pk = false)) := by
  rw [try_pubkey] at h
  by_cases hbit : srv.methods &&& SSH_AUTH_METHOD_PUBLICKEY = 0
  · simp [hbit] at h
  · by_cases hpk : pk = true
    · simp [hbit, hpk] at h
      exact ⟨hbit, Or.inl ⟨h, hpk⟩⟩
    · simp [hbit, hpk] at h
      exact ⟨hbit, Or.inr ⟨h, by simpa using hpk⟩⟩

theorem mem_try_inter {srv : Server} {rpass : Cred} {e : Ev}
    (h : e ∈ (try_inter srv rpass).1) :
    srv.methods &&& SSH_AUTH_METHOD_INTERACTIVE ≠ 0
      ∧ (e = Ev.ev_kbd_challenge ∨ (∃ q, e = Ev.ev_resolve q)
          ∨ (∃ j a, e = Ev.ev_setanswer j a)) := by
  rw [try_inter] at h
  by_cases hbit : srv.methods &&& SSH_AUTH_METHOD_INTERACTIVE = 0
  · simp [hbit] at h
  · refine ⟨hbit, ?_⟩
    rw [if_neg hbit] at h
    rcases hai : auth_interactive rpass srv.kbd_rounds srv.kbd_final with ⟨t1, r⟩
    rw [hai] at h
    have h1 : e ∈ t1 := by cases r <;> simpa using h
    exact mem_auth_interactive (show e ∈ (auth_interactive rpass srv.kbd_rounds srv.kbd_final).1 by
      rw [hai]; exact h1)

theorem mem_try_pass {w : World} {rpass : Cred} {e : Ev}
    (h : e ∈ (try_pass w rpass).1) :
    w.server.methods &&& SSH_AUTH_METHOD_PASSWORD ≠ 0
      ∧ ((∃ q, e = Ev.ev_resolve q) ∨ (∃ a, e = Ev.ev_password a)
          ∨ e = Ev.ev_disconnect ∨ e = Ev.ev_free) := by
  rw [try_pass] at h
  by_cases hbit : w.server.methods &&& SSH_AUTH_METHOD_PASSWORD = 0
  · simp [hbit] at h
  · refine ⟨hbit, ?_⟩
    rw [if_neg hbit] at h
    rcases hap : auth_password w rpass with ⟨t1, r⟩
    rw [hap] at h
    have h1 : e ∈ t1 := by cases r <;> simpa using h
    exact mem_auth_password (show e ∈ (auth_password w rpass).1 by
      rw [hap]; exact h1)

theorem try_pubkey_trace (srv : Server) (pk : Bool) :
    (try_pubkey srv pk).1 = [] ∨ (try_pubkey srv pk).1 = [Ev.ev_pubkey]
      ∨ (try_pubkey srv pk).1 = [Ev.ev_pubkey_auto] := by
  rw [try_pubkey]
  by_cases hbit : srv.methods &&& SSH_AUTH_METHOD_PUBLICKEY = 0
  · exact Or.inl (by simp [hbit])
  · by_cases hpk : pk = true
    · exact Or.inr (Or.inl (by simp [hbit, hpk]))
    · exact Or.inr (Or.inr (by simp [hbit, hpk]))

theorem not_mem_try_pubkey {srv : Server} {pk : Bool} {e : Ev}
    (h1 : e ≠ Ev.ev_pubkey) (h2 : e ≠ Ev.ev_pubkey_auto) : e ∉ (try_pubkey srv pk).1 := by
  intro h
  rcases (mem_try_pubkey h).2 with ⟨hx, _⟩ | ⟨hx, _⟩
  · exact h1 hx
  · exact h2 hx

theorem not_mem_try_inter {srv : Server} {rpass : Cred} {e : Ev}
    (h1 : e ≠ Ev.ev_kbd_challenge) (h2 : ∀ q, e ≠ Ev.ev_resolve q)
    (h3 : ∀ j a, e ≠ Ev.ev_setanswer j a) : e ∉ (try_inter srv rpass).1 := by
  intro h
  rcases (mem_try_inter h).2 with hx | ⟨q, hx⟩ | ⟨j, a, hx⟩
  · exact h1 hx
  · exact h2 q hx
  · exact h3 j a hx

theorem not_mem_try_pass {w : World} {rpass : Cred} {e : Ev}
    (h1 : ∀ q, e ≠ Ev.ev_resolve q) (h2 : ∀ a, e ≠ Ev.ev_password a)
    (h3 : e ≠ Ev.ev_disconnect) (h4 : e ≠ Ev.ev_free) : e ∉ (try_pass w rpass).1 := by
  intro h
  rcases (mem_try_pass h).2 with ⟨q, hx⟩ | ⟨a, hx⟩ | hx | hx
  · exact h1 q hx
  · exact h2 a hx
  · exact h3 hx
  · exact h4 hx

theorem mem_auth_any {w : World} {pk : Bool} {rpass : Cred} {e : Ev}
    (h : e ∈ (auth_any w pk rpass).1) :
    e = Ev.ev_none ∨ e = Ev.ev_list ∨ e ∈ (try_pubkey w.server pk).1
      ∨ e ∈ (try_inter w.server rpass).1 ∨ e ∈ (try_pass w rpass).1 := by
  rw [auth_any] at h
  by_cases hn : w.server.none_rc = SSH_AUTH_SUCCESS
  · rw [if_pos hn] at h
    simp at h
    exact Or.inl h
  · rw [if_neg hn] at h
    by_cases hb : (try_pubkey w.server pk).2 = true
    · simp only [hb, if_true] at h
      simp at h
      tauto
    · simp only [hb, if_false, Bool.false_eq_true] at h
      cases hti : (try_inter w.server rpass).2 with
      | err m =>
        rw [hti] at h
        simp at h
        tauto
      | ok b =>
        rw [hti] at h
        cases b with
        | true =>
          simp at h
          tauto
        | false =>
          simp only at h
          cases htw : (try_pass w rpass).2 with
          | err m =>
            rw [htw] at h
            simp at h
            tauto
          | ok b2 =>
            rw [htw] at h
            cases b2 <;> simp at h <;> tauto

theorem auth_any_none_success {w : World} (pk : Bool) (rpass : Cred)
    (hn : w.server.none_rc = SSH_AUTH_SUCCESS) :
    auth_any w pk rpass = ([Ev.ev_none], RRes.ok ()) := by
  rw [auth_any, if_pos hn]

theorem auth_any_pubkey_success {w : World} {pk : Bool} (rpass : Cred)
    (hn : w.server.none_rc ≠ SSH_AUTH_SUCCESS) (hb : (try_pubkey w.server pk).2 = true) :
    auth_any w pk rpass
      = ([Ev.ev_none, Ev.ev_list] ++ (try_pubkey w.server pk).1, RRes.ok ()) := by
  rw [auth_any, if_neg hn]
  simp [hb]

theorem auth_any_inter_success {w : World} {pk : Bool} {rpass : Cred}
    (hn : w.server.none_rc ≠ SSH_AUTH_SUCCESS) (hb : (try_pubkey w.server pk).2 = false)
    (hti : (try_inter w.server rpass).2 = RRes.ok true) :
    auth_any w pk rpass
      = ([Ev.ev_none, Ev.ev_list] ++ (try_pubkey w.server pk).1
          ++ (try_inter w.server rpass).1, RRes.ok ()) := by
  rw [auth_any, if_neg hn]
  simp [hb, hti]

theorem auth_any_exhausted {w : World} {pk : Bool} {rpass : Cred}
    (hn : w.server.none_rc ≠ SSH_AUTH_SUCCESS) (hb : (try_pubkey w.server pk).2 = false)
    (hti : (try_inter w.server rpass).2 = RRes.ok false)
    (htw : (try_pass w rpass).2 = RRes.ok false) :
    auth_any w pk rpass
      = ([Ev.ev_none, Ev.ev_list] ++ (try_pubkey w.server pk).1
          ++ (try_inter w.server rpass).1 ++ (try_pass w rpass).1,
         RRes.err "Authentication failed, permission denied") := by
  rw [auth_any, if_neg hn]
  simp [hb, hti, htw]

theorem auth_any_trace_shape (w : World) (pk : Bool) (rpass : Cred)
    (hn : w.server.none_rc ≠ SSH_AUTH_SUCCESS) :
    ∃ ti tw,
      (auth_any w pk rpass).1
        = [Ev.ev_none, Ev.ev_list] ++ (try_pubkey w.server pk).1 ++ ti ++ tw
      ∧ (ti = [] ∨ ti = (try_inter w.server rpass).1)
      ∧ (tw = [] ∨ tw = (try_pass w rpass).1) := by
  rw [auth_any, if_neg hn]
  by_cases hb : (try_pubkey w.server pk).2 = true
  · refine ⟨[], [], ?_, Or.inl rfl, Or.inl rfl⟩
    simp [hb]
  · simp only [hb, if_false, Bool.false_eq_true]
    cases hti : (try_inter w.server rpass).2 with
    | err m =>
      refine ⟨(try_inter w.server rpass).1, [], ?_, Or.inr rfl, Or.inl rfl⟩
      simp
    | ok b =>
      cases b with
      | true =>
        refine ⟨(try_inter w.server rpass).1, [], ?_, Or.inr rfl, Or.inl rfl⟩
        simp
      | false =>
        refine ⟨(try_inter w.server rpass).1, (try_pass w rpass).1, ?_, Or.inr rfl, Or.inr rfl⟩
        cases htw : (try_pass w rpass).2 with
        | err m => simp
        | ok b2 => cases b2 <;> simp

/-- Claim C2 counterexample: in the run where the none attempt succeeds,
the negotiator returns at once and the advertised-method bitmask is never
queried, so it is not queried exactly once in every run. -/
theorem C2_counterexample :
    auth_any wNoneOk false (Cred.str ["x"]) = ([Ev.ev_none], RRes.ok ())
    ∧ Ev.ev_list ∉ (auth_any wNoneOk false (Cred.str ["x"])).1 := by decide

/-- Claim C2 (amended): the negotiator attempts none, public key (the
explicit key when one was given, otherwise automatic discovery),
keyboard-interactive and password in this strict order, short-circuiting
on the first success; the advertised-method bitmask is queried exactly
once, directly after the none attempt, in every run where the none attempt
does not succeed (and never when it does); each of the last three methods
is attempted only if its bit is set; and when no branch succeeds the
negotiator fails with the permission-denied error. -/
theorem C2_priority_order (w : World) (pk : Bool) (rpass : Cred) :
    (auth_any w pk rpass).1.head? = some Ev.ev_none
    ∧ (w.server.none_rc = SSH_AUTH_SUCCESS →
        auth_any w pk rpass = ([Ev.ev_none], RRes.ok ()))
    ∧ (w.server.none_rc ≠ SSH_AUTH_SUCCESS →
        (auth_any w pk rpass).1.take 2 = [Ev.ev_none, Ev.ev_list]
        ∧ Ev.ev_list ∉ (auth_any w pk rpass).1.drop 2)
    ∧ (Ev.ev_pubkey ∈ (auth_any w pk rpass).1 →
        pk = true ∧ w.server.methods &&& SSH_AUTH_METHOD_PUBLICKEY ≠ 0)
    ∧ (Ev.ev_pubkey_auto ∈ (auth_any w pk rpass).1 →
        pk = false ∧ w.server.methods &&& SSH_AUTH_METHOD_PUBLICKEY ≠ 0)
    ∧ (Ev.ev_kbd_challenge ∈ (auth_any w pk rpass).1 →
        w.server.methods &&& SSH_AUTH_METHOD_INTERACTIVE ≠ 0)
    ∧ (∀ a, Ev.ev_password a ∈ (auth_any w pk rpass).1 →
        w.server.methods &&& SSH_AUTH_METHOD_PASSWORD ≠ 0)
    ∧ (w.server.none_rc ≠ SSH_AUTH_SUCCESS →
        ∃ tp ti tw,
          (auth_any w pk rpass).1 = [Ev.ev_none, Ev.ev_list] ++ tp ++ ti ++ tw
          ∧ (tp = [] ∨ tp = [Ev.ev_pubkey] ∨ tp = [Ev.ev_pubkey_auto])
          ∧ (∀ e ∈ ti, e = Ev.ev_kbd_challenge ∨ (∃ q, e = Ev.ev_resolve q)
              ∨ (∃ j a, e = Ev.ev_setanswer j a))
          ∧ (∀ e ∈ tw, (∃ q, e = Ev.ev_resolve q) ∨ (∃ a, e = Ev.ev_password a)
              ∨ e = Ev.ev_disconnect ∨ e = Ev.ev_free))
    ∧ (w.server.none_rc ≠ SSH_AUTH_SUCCESS → (try_pubkey w.server pk).2 = true →
        (auth_any w pk rpass).2 = RRes.ok ()
        ∧ Ev.ev_kbd_challenge ∉ (auth_any w pk rpass).1
        ∧ ∀ a, Ev.ev_password a ∉ (auth_any w pk rpass).1)
    ∧ (w.server.none_rc ≠ SSH_AUTH_SUCCESS → (try_pubkey w.server pk).2 = false →
        (try_inter w.server rpass).2 = RRes.ok true →
        (auth_any w pk rpass).2 = RRes.ok ()
        ∧ ∀ a, Ev.ev_password a ∉ (auth_any w pk rpass).1)
    ∧ (w.server.none_rc ≠ SSH_AUTH_SUCCESS → (try_pubkey w.server pk).2 = false →
        (try_inter w.server rpass).2 = RRes.ok false →
        (try_pass w rpass).2 = RRes.ok false →
        (auth_any w pk rpass).2 = RRes.err "Authentication failed, permission denied") := by
  refine ⟨?_, ?_, ?_, ?_, ?_, ?_, ?_, ?_, ?_, ?_, ?_⟩
  · by_cases hn : w.server.none_rc = SSH_AUTH_SUCCESS
    · rw [auth_any_none_success pk rpass hn]
      rfl
    · obtain ⟨ti, tw, hT, _, _⟩ := auth_any_trace_shape w pk rpass hn
      rw [hT]
      rfl
  · intro hn
    exact auth_any_none_success pk rpass hn
  · intro hn
    obtain ⟨ti, tw, hT, hti, htw⟩ := auth_any_trace_shape w pk rpass hn
    rw [hT]
    refine ⟨rfl, ?_⟩
    intro h
    simp at h
    rcases h with h | h | h
    · exact absurd h (not_mem_try_pubkey (fun hx => nomatch hx) (fun hx => nomatch hx))
    · rcases hti with rfl | rfl
      · simp at h
      · exact absurd h (not_mem_try_inter (fun hx => nomatch hx) (fun q hx => nomatch hx)
          (fun j a hx => nomatch hx))
    · rcases htw with rfl | rfl
      · simp at h
      · exact absurd h (not_mem_try_pass (fun q hx => nomatch hx) (fun a hx => nomatch hx)
          (fun hx => nomatch hx) (fun hx => nomatch hx))
  · intro h
    rcases mem_auth_any h with h | h | h | h | h
    · exact nomatch h
    · exact nomatch h
    · obtain ⟨hbit, hc⟩ := mem_try_pubkey h
      rcases hc with ⟨_, hpk⟩ | ⟨hx, _⟩
      · exact ⟨hpk, hbit⟩
      · exact nomatch hx
    · rcases (mem_try_inter h).2 with hx | ⟨q, hx⟩ | ⟨j, a, hx⟩ <;> exact nomatch hx
    · rcases (mem_try_pass h).2 with ⟨q, hx⟩ | ⟨a, hx⟩ | hx | hx <;> exact nomatch hx
  · intro h
    rcases mem_auth_any h with h | h | h | h | h
    · exact nomatch h
    · exact nomatch h
    · obtain ⟨hbit, hc⟩ := mem_try_pubkey h
      rcases hc with ⟨hx, _⟩ | ⟨_, hpk⟩
      · exact nomatch hx
      · exact ⟨hpk, hbit⟩
    · rcases (mem_try_inter h).2 with hx | ⟨q, hx⟩ | ⟨j, a, hx⟩ <;> exact nomatch hx
    · rcases (mem_try_pass h).2 with ⟨q, hx⟩ | ⟨a, hx⟩ | hx | hx <;> exact nomatch hx
  · intro h
    rcases mem_auth_any h with h | h | h | h | h
    · exact nomatch h
    · exact nomatch h
    · rcases (mem_try_pubkey h).2 with ⟨hx, _⟩ | ⟨hx, _⟩ <;> exact nomatch hx
    · exact (mem_try_inter h).1
    · rcases (mem_try_pass h).2 with ⟨q, hx⟩ | ⟨a, hx⟩ | hx | hx <;> exact nomatch hx
  · intro a h
    rcases mem_auth_any h with h | h | h | h | h
    · exact nomatch h
    · exact nomatch h
    · rcases (mem_try_pubkey h).2 with ⟨hx, _⟩ | ⟨hx, _⟩ <;> exact nomatch hx
    · rcases (mem_try_inter h).2 with hx | ⟨q, hx⟩ | ⟨j, a2, hx⟩ <;> exact nomatch hx
    · exact (mem_try_pass h).1
  · intro hn
    obtain ⟨ti, tw, hT, hti, htw⟩ := auth_any_trace_shape w pk rpass hn
    refine ⟨(try_pubkey w.server pk).1, ti, tw, hT, try_pubkey_trace _ _, ?_, ?_⟩
    · intro e he
      rcases hti with rfl | rfl
      · simp at he
      · exact (mem_try_inter he).2
    · intro e he
      rcases htw with rfl | rfl
      · simp at he
      · exact (mem_try_pass he).2
  · intro hn hb
    have hA := auth_any_pubkey_success rpass hn hb
    rw [hA]
    refine ⟨rfl, ?_, ?_⟩
    · intro h
      simp at h
      exact absurd h (not_mem_try_pubkey (fun hx => nomatch hx) (fun hx => nomatch hx))
    · intro a h
      simp at h
      exact absurd h (not_mem_try_pubkey (fun hx => nomatch hx) (fun hx => nomatch hx))
  · intro hn hb hti
    have hA := auth_any_inter_success hn hb hti
    rw [hA]
    refine ⟨rfl, ?_⟩
    intro a h
    simp at h
    rcases h with h | h
    · exact absurd h (not_mem_try_pubkey (fun hx => nomatch hx) (fun hx => nomatch hx))
    · exact absurd h (not_mem_try_inter (fun hx => nomatch hx) (fun q hx => nomatch hx)
        (fun j a2 hx => nomatch hx))
  · intro hn hb hti htw
    rw [auth_any_exhausted hn hb hti htw]

/-- Claim C2 witness: at a server that denies none and advertises nothing,
the negotiator ends with the permission-denied error. -/
theorem C2_witness :
    (auth_any wAuthFail false (Cred.str ["x"])).2
      = RRes.err "Authentication failed, permission denied" :=
  (C2_priority_order wAuthFail false (Cred.str ["x"])).2.2.2.2.2.2.2.2.2.2
    (by decide) (by decide) (by decide) (by decide)

/-! Truncation by the fixed 1024-byte buffer. -/

theorem strncpy1024_length (s : String) : (strncpy1024 s).length = min 1024 s.length := by
  show (s.data.take 1024).length = min 1024 s.data.length
  exact List.length_take 1024 s.data

theorem strncpy1024_of_le {s : String} (h : s.length ≤ 1024) : strncpy1024 s = s := by
  unfold strncpy1024
  rw [List.take_of_length_le h]

theorem password_cb_ok_length {cred : Cred} {p v : String}
    (h : password_cb cred p = RRes.ok v) : v.length ≤ 1024 := by
  have hv : ∃ s, v = strncpy1024 s := by
    cases cred with
    | str vals =>
      cases vals with
      | nil => simp [password_cb] at h
      | cons s rest =>
        refine ⟨s, ?_⟩
        simp [password_cb] at h
        exact h.symm
    | fn f =>
      cases hf : f p with
      | ok s =>
        refine ⟨s, ?_⟩
        simp [password_cb, hf] at h
        exact h.symm
      | nonString => simp [password_cb, hf] at h
      | raised => simp [password_cb, hf] at h
    | other => simp [password_cb] at h
  obtain ⟨s, rfl⟩ := hv
  rw [strncpy1024_length]
  omega

theorem setanswer_from_cb {rpass : Cred} {ps : List (String × Bool)} {i j : Nat} {a : String}
    (h : Ev.ev_setanswer j a ∈ (do_prompts rpass ps i).1) :
    ∃ q, password_cb rpass q = RRes.ok a := by
  induction ps generalizing i with
  | nil => simp [do_prompts] at h
  | cons hd rest ih =>
    obtain ⟨p, acc⟩ := hd
    rw [do_prompts] at h
    cases hcb : password_cb rpass p with
    | err m =>
      rw [hcb] at h
      simp at h
    | ok buf =>
      rw [hcb] at h
      by_cases hacc : acc = true
      · simp [hacc] at h
        rcases h with h | h
        · exact ⟨p, by rw [hcb, h.2]⟩
        · exact ih h
      · simp [hacc] at h
        exact ⟨p, by rw [hcb, h.2]⟩

theorem setanswer_from_cb_inter {rpass : Cred} {rounds : List KbdRound} {final : Int}
    {j : Nat} {a : String}
    (h : Ev.ev_setanswer j a ∈ (auth_interactive rpass rounds final).1) :
    ∃ q, password_cb rpass q = RRes.ok a := by
  induction rounds with
  | nil => simp [auth_interactive] at h
  | cons r rest ih =>
    rw [auth_interactive] at h
    cases hdp : (do_prompts rpass r.prompts 0).2 with
    | rerr m =>
      rw [hdp] at h
      simp at h
      exact setanswer_from_cb h
    | rejected =>
      rw [hdp] at h
      simp at h
      exact setanswer_from_cb h
    | done =>
      rw [hdp] at h
      simp at h
      rcases h with h | h
      · exact setanswer_from_cb h
      · exact ih h

theorem password_submits_buf {w : World} {rpass : Cred} {a : String}
    (h : Ev.ev_password a ∈ (auth_password w rpass).1) :
    password_cb rpass "Please enter your password" = RRes.ok a := by
  rw [auth_password] at h
  cases hcb : password_cb rpass "Please enter your password" with
  | err m =>
    rw [hcb] at h
    simp at h
  | ok buf =>
    rw [hcb] at h
    by_cases hrc : w.server.password_rc = SSH_AUTH_ERROR
    · simp [bail_if, hrc, SSH_OK] at h
      rw [h]
    · simp [bail_if, hrc, SSH_OK] at h
      rw [h]

/-- Claim C10: every resolved secret, whether from a literal or from a
callback string, passes through the fixed 1024-byte buffer: a resolution
result never exceeds 1024 bytes, secrets that fit the buffer survive
unchanged, secrets longer than 1024 bytes are cut to their first 1024
bytes, and every value submitted to ssh_userauth_password or
ssh_userauth_kbdint_setanswer is such a buffered value. -/
theorem C10_buffer_truncation :
    (∀ cred p v, password_cb cred p = RRes.ok v → v.length ≤ 1024)
    ∧ (∀ s : String, s.length ≤ 1024 → strncpy1024 s = s)
    ∧ (∀ s : String, 1024 < s.length →
        (strncpy1024 s).length = 1024 ∧ strncpy1024 s ≠ s
        ∧ (strncpy1024 s).data = s.data.take 1024
        ∧ ∃ remainder, s.data = (strncpy1024 s).data ++ remainder)
    ∧ (∀ s rest p, password_cb (Cred.str (s :: rest)) p = RRes.ok (strncpy1024 s))
    ∧ (∀ f s p, f p = CbResult.ok s → password_cb (Cred.fn f) p = RRes.ok (strncpy1024 s))
    ∧ (∀ w cred a, Ev.ev_password a ∈ (auth_password w cred).1 → a.length ≤ 1024)
    ∧ (∀ rpass rounds final j a,
        Ev.ev_setanswer j a ∈ (auth_interactive rpass rounds final).1 → a.length ≤ 1024) := by
  refine ⟨?_, ?_, ?_, ?_, ?_, ?_, ?_⟩
  · intro cred p v h
    exact password_cb_ok_length h
  · intro s h
    exact strncpy1024_of_le h
  · intro s h
    refine ⟨?_, ?_, rfl, ⟨s.data.drop 1024, (List.take_append_drop 1024 s.data).symm⟩⟩
    · rw [strncpy1024_length]
      omega
    · intro heq
      have := congrArg String.length heq
      rw [strncpy1024_length] at this
      omega
  · intro s rest p
    rfl
  · intro f s p hf
    simp [password_cb, hf]
  · intro w cred a h
    exact password_cb_ok_length (password_submits_buf h)
  · intro rpass rounds final j a h
    obtain ⟨q, hq⟩ := setanswer_from_cb_inter h
    exact password_cb_ok_length hq

/-- Claim C10 witness: a short secret is returned whole (and is within the
bound), instantiating the truncation theorem at concrete inputs. -/
theorem C10_witness : ("x" : String).length ≤ 1024 ∧ strncpy1024 "hunter2" = "hunter2" :=
  ⟨C10_buffer_truncation.1 (Cred.str ["x"]) "p" "x" (by decide),
   C10_buffer_truncation.2.1 "hunter2" (by decide)⟩

theorem bigSecret_length : bigSecret.length = 1025 := by
  show (List.replicate 1025 'a').length = 1025
  exact List.length_replicate 1025 'a'

/-- Claim C4 counterexample: a non-empty literal secret of 1025 bytes is
not returned unchanged by the resolver: what comes back is its 1024-byte
truncation. -/
theorem C4_counterexample :
    bigSecret ≠ "" ∧ bigSecret.length = 1025
    ∧ password_cb (Cred.str [bigSecret]) "p" ≠ RRes.ok bigSecret
    ∧ password_cb (Cred.str [bigSecret]) "p" = RRes.ok (strncpy1024 bigSecret)
    ∧ (strncpy1024 bigSecret).length = 1024 := by
  refine ⟨?_, bigSecret_length, ?_, rfl, ?_⟩
  · intro h
    have h2 := congrArg String.length h
    rw [bigSecret_length] at h2
    exact absurd h2 (by decide)
  · intro h
    have h2 : strncpy1024 bigSecret = bigSecret := by
      simp only [password_cb] at h
      exact (RRes.ok.injEq _ _).mp h
    have h3 := congrArg String.length h2
    rw [strncpy1024_length, bigSecret_length] at h3
    omega
  · rw [strncpy1024_length, bigSecret_length]
    omega

/-- Claim C4 (amended): every literal secret is resolved to its image
through the 1024-byte buffer, independently of the prompt text: a secret
of at most 1024 bytes is returned exactly as given, and a longer secret is
returned truncated to precisely its first 1024 bytes (a proper change of
the value). -/
theorem C4_literal_secret (s : String) (rest : List String) (p q : String) :
    password_cb (Cred.str (s :: rest)) p = RRes.ok (strncpy1024 s)
    ∧ password_cb (Cred.str (s :: rest)) p = password_cb (Cred.str (s :: rest)) q
    ∧ (s.length ≤ 1024 → password_cb (Cred.str (s :: rest)) p = RRes.ok s)
    ∧ (1024 < s.length →
        password_cb (Cred.str (s :: rest)) p = RRes.ok (strncpy1024 s)
        ∧ (strncpy1024 s).data = s.data.take 1024
        ∧ strncpy1024 s ≠ s) := by
  refine ⟨rfl, rfl, ?_, ?_⟩
  · intro hlen
    have h : password_cb (Cred.str (s :: rest)) p = RRes.ok (strncpy1024 s) := rfl
    rw [h, strncpy1024_of_le hlen]
  · intro hlen
    refine ⟨rfl, rfl, ?_⟩
    intro heq
    have h3 := congrArg String.length heq
    rw [strncpy1024_length] at h3
    omega

/-- Claim C4 witness: the short literal hunter2 is returned unchanged for
two distinct prompts, and the 1025-byte literal is returned as its
1024-byte truncation. -/
theorem C4_witness :
    password_cb (Cred.str ["hunter2"]) "a" = RRes.ok "hunter2"
    ∧ password_cb (Cred.str ["hunter2"]) "a" = password_cb (Cred.str ["hunter2"]) "b"
    ∧ password_cb (Cred.str [bigSecret]) "p" = RRes.ok (strncpy1024 bigSecret) :=
  ⟨(C4_literal_secret "hunter2" [] "a" "b").2.2.1 (by decide),
   (C4_literal_secret "hunter2" [] "a" "b").2.1,
   ((C4_literal_secret bigSecret [] "p" "q").2.2.2 (by rw [bigSecret_length]; omega)).1⟩

/-- Claim C5 counterexample: a callback returning a 1025-byte string does
not make resolve succeed with that string: the result is truncated (and
still no CredentialError is raised). -/
theorem C5_counterexample :
    password_cb (Cred.fn fun _ => CbResult.ok bigSecret) "p" ≠ RRes.ok bigSecret
    ∧ ∀ e, password_cb (Cred.fn fun _ => CbResult.ok bigSecret) "p" ≠ RRes.err e := by
  constructor
  · intro h
    simp only [password_cb] at h
    have h2 : strncpy1024 bigSecret = bigSecret := (RRes.ok.injEq _ _).mp h
    have h3 := congrArg String.length h2
    rw [strncpy1024_length, bigSecret_length] at h3
    omega
  · intro e h
    simp only [password_cb] at h
    exact nomatch h

/-- Claim C5 (amended): a callback credential fails with the
CredentialError message exactly when the callback raises or returns a
non-string value; when the callback returns a string, resolve succeeds
without CredentialError, yielding that string truncated to its first 1024
bytes. -/
theorem C5_callback_credential (f : String → CbResult) (p : String) :
    ((∃ e, password_cb (Cred.fn f) p = RRes.err e)
        ↔ (f p = CbResult.raised ∨ f p = CbResult.nonString))
    ∧ (∀ s, f p = CbResult.ok s → password_cb (Cred.fn f) p = RRes.ok (strncpy1024 s))
    ∧ (∀ e, password_cb (Cred.fn f) p = RRes.err e →
        e = "Password callback did not return a string value") := by
  cases hf : f p with
  | ok s =>
    refine ⟨⟨?_, ?_⟩, ?_, ?_⟩
    · rintro ⟨e, he⟩
      simp [password_cb, hf] at he
    · rintro (h | h) <;> exact nomatch h
    · intro s2 h2
      simp at h2
      subst h2
      simp [password_cb, hf]
    · intro e he
      simp [password_cb, hf] at he
  | nonString =>
    refine ⟨⟨?_, ?_⟩, ?_, ?_⟩
    · intro _
      exact Or.inr rfl
    · intro _
      exact ⟨"Password callback did not return a string value", by simp [password_cb, hf]⟩
    · intro s2 h2
      simp [hf] at h2
    · intro e he
      simp [password_cb, hf] at he
      exact he.symm
  | raised =>
    refine ⟨⟨?_, ?_⟩, ?_, ?_⟩
    · intro _
      exact Or.inl rfl
    · intro _
      exact ⟨"Password callback did not return a string value", by simp [password_cb, hf]⟩
    · intro s2 h2
      simp [hf] at h2
    · intro e he
      simp [password_cb, hf] at he
      exact he.symm

/-- Claim C5 witness: a callback returning a non-string value makes
resolve fail with the CredentialError message. -/
theorem C5_witness :
    ∃ e, password_cb (Cred.fn fun _ => CbResult.nonString) "p" = RRes.err e :=
  (C5_callback_credential (fun _ => CbResult.nonString) "p").1.mpr (Or.inr rfl)

theorem kbd_challenge_not_in_prompts_trace (rpass : Cred) (ps : List (String × Bool)) (i : Nat) :
    Ev.ev_kbd_challenge ∉ prompts_trace rpass ps i := by
  induction ps generalizing i with
  | nil => simp [prompts_trace]
  | cons hd tl ih =>
    obtain ⟨q, b⟩ := hd
    simp [prompts_trace, ih]

theorem do_prompts_reject {rpass : Cred} {pre : List (String × Bool)}
    (hpre : ∀ x ∈ pre, x.2 = true ∧ ∃ s, password_cb rpass x.1 = RRes.ok s)
    {p : String} (hp : ∃ s, password_cb rpass p = RRes.ok s)
    (post : List (String × Bool)) :
    ∀ i, do_prompts rpass (pre ++ (p, false) :: post) i
      = (prompts_trace rpass pre i
          ++ [Ev.ev_resolve p, Ev.ev_setanswer (i + pre.length) (cb_val rpass p)],
         RoundOut.rejected) := by
  induction pre with
  | nil =>
    intro i
    obtain ⟨s, hs⟩ := hp
    simp [do_prompts, prompts_trace, hs, cb_val]
  | cons hd tl ih =>
    intro i
    obtain ⟨p1, b1⟩ := hd
    obtain ⟨hb1, s1, hs1⟩ := hpre (p1, b1) (by simp)
    obtain ⟨s, hs⟩ := hp
    have htl : ∀ x ∈ tl, x.2 = true ∧ ∃ s, password_cb rpass x.1 = RRes.ok s := by
      intro x hx
      exact hpre x (by simp [hx])
    have hrec := ih htl (i + 1)
    simp only at hb1
    subst hb1
    have harith : i + 1 + tl.length = i + (tl.length + 1) := by omega
    simp [List.cons_append, do_prompts, hs1, hrec, prompts_trace, cb_val, hs, harith]

/-- Claim C6: inside one keyboard-interactive round, a rejected answer
submission terminates the sub-protocol at once with SSH_AUTH_ERROR: the
prompts after the rejected slot are neither resolved nor submitted, and
the challenge request is not re-issued (the trace holds exactly the one
challenge that opened the round). -/
theorem C6_reject_aborts (rpass : Cred) (nm ins : String)
    (pre post : List (String × Bool)) (p : String) (rest : List KbdRound) (final : Int)
    (hpre : ∀ x ∈ pre, x.2 = true ∧ ∃ s, password_cb rpass x.1 = RRes.ok s)
    (hp : ∃ s, password_cb rpass p = RRes.ok s) :
    auth_interactive rpass
        ({ name := nm, instruction := ins, prompts := pre ++ (p, false) :: post } :: rest) final
      = (Ev.ev_kbd_challenge ::
          (prompts_trace rpass pre 0
            ++ [Ev.ev_resolve p, Ev.ev_setanswer pre.length (cb_val rpass p)]),
         RRes.ok SSH_AUTH_ERROR)
    ∧ Ev.ev_kbd_challenge ∉ prompts_trace rpass pre 0 := by
  have hdp := do_prompts_reject hpre hp post 0
  constructor
  · rw [auth_interactive]
    simp only [hdp]
    simp
  · exact kbd_challenge_not_in_prompts_trace rpass pre 0

/-- Claim C6 witness: with three prompts whose second submission is
rejected, the run resolves and submits only the first two prompts, issues
no second challenge, and ends with SSH_AUTH_ERROR. -/
theorem C6_witness :
    auth_interactive (Cred.str ["pw"])
        [{ name := "", instruction := "",
           prompts := [("user", true), ("pass", false), ("later", true)] }] 1
      = ([Ev.ev_kbd_challenge, Ev.ev_resolve "user", Ev.ev_setanswer 0 "pw",
          Ev.ev_resolve "pass", Ev.ev_setanswer 1 "pw"], RRes.ok SSH_AUTH_ERROR) := by
  have h := (C6_reject_aborts (Cred.str ["pw"]) "" "" [("user", true)] [("later", true)]
      "pass" [] 1
      (by
        intro x hx
        have hx2 : x = ("user", true) := by simpa using hx
        subst hx2
        exact ⟨rfl, ⟨strncpy1024 "pw", rfl⟩⟩)
      ⟨strncpy1024 "pw", rfl⟩).1
  exact h.trans (by decide)

/-- Claim C7: a keyboard-interactive round advertising zero prompts
resolves no credential and submits no answer; the challenge is simply
re-issued and the loop goes on, the final status of the remaining rounds
becoming the result of the sub-protocol (on an empty tail that is the
terminal status itself). -/
theorem C7_zero_prompt_round (rpass : Cred) (nm ins : String) (rest : List KbdRound)
    (final : Int) :
    auth_interactive rpass ({ name := nm, instruction := ins, prompts := [] } :: rest) final
      = (Ev.ev_kbd_challenge :: (auth_interactive rpass rest final).1,
         (auth_interactive rpass rest final).2)
    ∧ auth_interactive rpass [] final = ([Ev.ev_kbd_challenge], RRes.ok final) := by
  constructor
  · rw [auth_interactive]
    simp [do_prompts]
  · rw [auth_interactive]

/-- Claim C8: explicit disconnect is idempotent: it always leaves a dead
handle, on a dead handle it performs nothing (and its return type shows it
can never raise), on a live handle it disconnects then frees, and running
it a second time adds no observable effect. -/
theorem C8_disconnect_idempotent (ptr : SessPtr) :
    (C_disconnect_session ptr).1 = none
    ∧ (ptr = none → C_disconnect_session ptr = (none, []))
    ∧ (∀ s, ptr = some s → (C_disconnect_session ptr).2 = [Ev.ev_disconnect, Ev.ev_free])
    ∧ C_disconnect_session (C_disconnect_session ptr).1 = ((C_disconnect_session ptr).1, []) := by
  cases ptr <;> simp [C_disconnect_session, ssh_ptr_fin]

/-- Claim C8 witness: disconnect of a dead handle is a no-op; disconnect
of a live handle disconnects then frees. -/
theorem C8_witness :
    C_disconnect_session none = (none, [])
    ∧ (C_disconnect_session (some 7)).2 = [Ev.ev_disconnect, Ev.ev_free] :=
  ⟨(C8_disconnect_idempotent none).2.1 rfl,
   (C8_disconnect_idempotent (some 7)).2.2.1 7 rfl⟩

/-- Claim C9: the sole accessor of the raw resource raises the
pointer-is-dead error on a dead handle and yields a session only from a
live handle; the finalizer touches nothing on a dead handle. -/
theorem C9_dead_pointer_guard :
    ssh_ptr_get none = RRes.err "SSH session pointer is dead"
    ∧ (∀ ptr s, ssh_ptr_get ptr = RRes.ok s → ptr = some s)
    ∧ (ssh_ptr_fin none).2 = [] := by
  refine ⟨rfl, ?_, rfl⟩
  intro ptr s h
  cases ptr with
  | none => simp [ssh_ptr_get] at h
  | some v =>
    simp [ssh_ptr_get] at h
    rw [h]

/-- Claim C9 witness: the accessor on a live handle returns exactly the
stored session. -/
theorem C9_witness : (some 3 : SessPtr) = some 3 :=
  C9_dead_pointer_guard.2.1 (some 3) 3 rfl

/-- Claim C1 (code bug): when every authentication method is exhausted,
auth_any raises the permission-denied error through Rf_error (session.c
line 108) WITHOUT disconnecting or freeing the session: the run below
connects successfully, fails authentication, and its trace holds no
disconnect and no free event, so the native resource leaks instead of
being torn down exactly once. -/
theorem C1_leak_on_auth_failure :
    (C_start_session wAuthFail (Cred.str ["pw"])).2
        = RRes.err "Authentication failed, permission denied"
    ∧ Ev.ev_connect ∈ (C_start_session wAuthFail (Cred.str ["pw"])).1
    ∧ Ev.ev_disconnect ∉ (C_start_session wAuthFail (Cred.str ["pw"])).1
    ∧ Ev.ev_free ∉ (C_start_session wAuthFail (Cred.str ["pw"])).1 := by decide

/-- Claim C3 (code bug): session.c lines 143-144 discard the status codes
of ssh_get_publickey and ssh_get_publickey_hash, so a failed host-key
retrieval (publickey_rc = SSH_ERROR = -1 here) is never noticed: the run
still computes the hash, proceeds to authentication (the none attempt is
in the trace), succeeds, and nothing is torn down or raised. -/
theorem C3_hostkey_failure_ignored :
    wHostKeyFail.publickey_rc = -1
    ∧ (C_start_session wHostKeyFail (Cred.str ["pw"])).2 = RRes.ok ()
    ∧ Ev.ev_get_publickey ∈ (C_start_session wHostKeyFail (Cred.str ["pw"])).1
    ∧ Ev.ev_get_hash ∈ (C_start_session wHostKeyFail (Cred.str ["pw"])).1
    ∧ Ev.ev_none ∈ (C_start_session wHostKeyFail (Cred.str ["pw"])).1
    ∧ Ev.ev_disconnect ∉ (C_start_session wHostKeyFail (Cred.str ["pw"])).1 := by decide

end SshSession
